import Mathlib

/-!
A shallow embedding of the subscription service's core: the domain entity,
the storage operations (the SQL the store executes), and the orchestration
layer (usecase functions and the HTTP handler pipeline that feeds them),
together with theorems checking the specification's claims against these
definitions.
-/

/-- Civil date-time (UTC), the value carried by Go `time.Time` and by the
SQL `TIMESTAMP` column, at second precision (the code only works at second
precision). -/
structure DateTime where
  year : Nat
  month : Nat
  day : Nat
  hour : Nat
  minute : Nat
  second : Nat
deriving DecidableEq

/-- Injective linearization of a civil date-time. For in-range fields
(month ≤ 12 < 13, day ≤ 31 < 32, hour < 24, minute < 60, second < 60) it
realizes the chronological, field-lexicographic order that SQL TIMESTAMP
comparison uses. -/
def DateTime.key (t : DateTime) : Nat :=
  ((((t.year * 13 + t.month) * 32 + t.day) * 24 + t.hour) * 60 + t.minute) * 60 + t.second

/-- Chronological comparison of timestamps, as in SQL `started_at >= x`
and `started_at <= x`. -/
def DateTime.leb (a b : DateTime) : Bool := decide (a.key ≤ b.key)

/-- Go leap-year rule (`time.isLeap`). -/
def isLeap (y : Nat) : Bool := y % 4 == 0 && (y % 100 != 0 || y % 400 == 0)

/-- Number of days in a month of a given year (Go `time.daysIn`). -/
def daysInMonth (y m : Nat) : Nat :=
  if m = 2 then (if isLeap y then 29 else 28)
  else if m = 4 ∨ m = 6 ∨ m = 9 ∨ m = 11 then 30
  else 31

/-- Go `time.Parse` on layout `01-2006`: exactly two month digits, a
hyphen, exactly four year digits, nothing else; the month must be in 1..12
(Go's range check). Returns `(month, year)` on success. -/
def parseMonthYear (s : String) : Option (Nat × Nat) :=
  match s.toList with
  | [m1, m2, sep, y1, y2, y3, y4] =>
    if m1.isDigit ∧ m2.isDigit ∧ sep = '-' ∧ y1.isDigit ∧ y2.isDigit ∧ y3.isDigit ∧ y4.isDigit
        ∧ 1 ≤ (m1.toNat - 48) * 10 + (m2.toNat - 48)
        ∧ (m1.toNat - 48) * 10 + (m2.toNat - 48) ≤ 12 then
      some ((m1.toNat - 48) * 10 + (m2.toNat - 48),
        (((y1.toNat - 48) * 10 + (y2.toNat - 48)) * 10 + (y3.toNat - 48)) * 10 + (y4.toNat - 48))
    else none
  | _ => none

/-- Go `time.Parse("01-2006", s)` yields the first instant of the parsed
month. -/
def firstOfMonth (m y : Nat) : DateTime := ⟨y, m, 1, 0, 0, 0⟩

/-- Go `t.AddDate(0, 1, 0)`: add one month, with Go's date normalization
carrying month 13 into the next year. At the call site `t` is a
first-of-month instant, so the day (1) never overflows the target month. -/
def addOneMonth (t : DateTime) : DateTime :=
  if t.month = 12 then { t with year := t.year + 1, month := 1 }
  else { t with month := t.month + 1 }

/-- Go `t.Add(-time.Second)` in civil form: subtract one second, borrowing
through minute, hour, day, month and year. -/
def subOneSecond (t : DateTime) : DateTime :=
  if 0 < t.second then { t with second := t.second - 1 }
  else if 0 < t.minute then { t with minute := t.minute - 1, second := 59 }
  else if 0 < t.hour then { t with hour := t.hour - 1, minute := 59, second := 59 }
  else if 1 < t.day then { t with day := t.day - 1, hour := 23, minute := 59, second := 59 }
  else if 1 < t.month then
    { t with month := t.month - 1, day := daysInMonth t.year (t.month - 1),
             hour := 23, minute := 59, second := 59 }
  else
    { year := t.year - 1, month := 12, day := 31, hour := 23, minute := 59, second := 59 }

/-- UUIDs are treated as abstract identifiers; `0` models the zero UUID,
the zero value of Go's `uuid.UUID`. -/
abbrev UUID := Nat

/-- A stored row of the `subscriptions` table. -/
structure Row where
  id : UUID
  serviceName : String
  servicePrice : Int
  userId : UUID
  startedAt : DateTime
  endedAt : Option DateTime
deriving DecidableEq

/-- The domain entity `domain.UserSub`. -/
structure UserSub where
  id : UUID
  serviceName : String
  servicePrice : Int
  userId : UUID
  startedAt : DateTime
  endedAt : Option DateTime
deriving DecidableEq

/-- Go error values as the code builds them: the `pgx.ErrNoRows` sentinel,
plain `errors.New`-style messages (also used for arbitrary driver
failures), and the wrapping `fmt.Errorf` with the `%w` verb applies. -/
inductive GoErr where
  | noRows : GoErr
  | simple : String → GoErr
  | wrap : String → GoErr → GoErr
deriving DecidableEq

/-- Value equality on Go errors, the comparison `errors.Is` applies at
each level of the wrap chain. -/
def GoErr.beq : GoErr → GoErr → Bool
  | GoErr.noRows, GoErr.noRows => true
  | GoErr.simple a, GoErr.simple b => a == b
  | GoErr.wrap a e1, GoErr.wrap b e2 => a == b && GoErr.beq e1 e2
  | _, _ => false

/-- Go `errors.Is`: compare with the target, then unwrap and repeat. -/
def GoErr.is : GoErr → GoErr → Bool
  | GoErr.wrap s inner, target => GoErr.beq (GoErr.wrap s inner) target || GoErr.is inner target
  | e, target => GoErr.beq e target

/-- Classification of an error surfaced by the orchestration layer, by
origin: raised by input validation before any store call, or propagated
from the storage layer. -/
inductive Err where
  | validation : GoErr → Err
  | storage : GoErr → Err
deriving DecidableEq

/-- One invocation of a storage-layer operation, recorded so theorems can
speak about which store calls an operation performs. -/
inductive StoreCall where
  | create : UserSub → StoreCall
  | update : UserSub → StoreCall
  | delete : UUID → UUID → StoreCall
  | getSubs : StoreCall
  | getUserSubs : UUID → StoreCall
  | getUserSub : UUID → StoreCall
  | totalCost : UUID → String → DateTime → DateTime → StoreCall
deriving DecidableEq

/-- The durable store: its rows, plus the log of storage calls issued. -/
structure Store where
  rows : List Row
  calls : List StoreCall
deriving DecidableEq

/-- SQL `SUM`: NULL (`none`) over zero rows, the sum otherwise. -/
def sqlSum (xs : List Int) : Option Int := if xs.isEmpty then none else some xs.sum

/-- SQL `COALESCE(x, d)`. -/
def sqlCoalesce (x : Option Int) (d : Int) : Int := x.getD d

/-- The INSERT built by `Storage.CreateSub`: columns `service_name`,
`sub_price`, `user_id`, `started_at`, `ended_at`. The `id` column is
omitted, so the store assigns `newId` via the column default
`gen_random_uuid()`; the entity's own `id` field is never read. -/
def Storage.CreateSub (rows : List Row) (newId : UUID) (sub : UserSub) : List Row :=
  rows ++ [{ id := newId, serviceName := sub.serviceName, servicePrice := sub.servicePrice,
             userId := sub.userId, startedAt := sub.startedAt, endedAt := sub.endedAt }]

/-- The UPDATE built by `Storage.UpdateSub`: set `service_name`,
`sub_price`, `ended_at` on rows matching `id = sub.id AND user_id =
sub.userId`. -/
def Storage.UpdateSub (rows : List Row) (sub : UserSub) : List Row :=
  rows.map fun r =>
    if r.id = sub.id ∧ r.userId = sub.userId then
      { r with serviceName := sub.serviceName, servicePrice := sub.servicePrice,
               endedAt := sub.endedAt }
    else r

/-- The DELETE built by `Storage.DeleteSub`: remove rows matching
`id = subID AND user_id = userID`; rows affected are not inspected. -/
def Storage.DeleteSub (rows : List Row) (subID userID : UUID) : List Row :=
  rows.filter fun r => !(decide (r.id = subID ∧ r.userId = userID))

/-- Scanning a selected row into a zero-valued `domain.UserSub`: the
select list omits `id`, so the entity keeps the zero UUID there. -/
def rowToUserSub (r : Row) : UserSub :=
  { id := 0, serviceName := r.serviceName, servicePrice := r.servicePrice,
    userId := r.userId, startedAt := r.startedAt, endedAt := r.endedAt }

/-- `Storage.GetSubs`: select `service_name, sub_price, user_id,
started_at, ended_at` over all rows. -/
def Storage.GetSubs (rows : List Row) : List UserSub := rows.map rowToUserSub

/-- `Storage.GetUserSubs`: the same select filtered by `user_id`. -/
def Storage.GetUserSubs (rows : List Row) (userID : UUID) : List UserSub :=
  (rows.filter fun r => decide (r.userId = userID)).map rowToUserSub

/-- `Storage.GetUserSub`: the same select filtered by `id`, through
`QueryRow`; zero matching rows surface as the wrapped `pgx.ErrNoRows`. -/
def Storage.GetUserSub (rows : List Row) (subID : UUID) : Except GoErr UserSub :=
  match rows.find? (fun r => decide (r.id = subID)) with
  | none => Except.error (GoErr.wrap "storage.storage.GetUserSub" GoErr.noRows)
  | some r => Except.ok (rowToUserSub r)

/-- `Storage.GetTotalCost`: `SELECT COALESCE(SUM(sub_price), 0)` over rows
matching `user_id`, `service_name`, `started_at >= lo`, `started_at <= hi`.
The COALESCE makes the zero-rows result `0` rather than NULL, so the scan
into an integer always succeeds. -/
def Storage.GetTotalCost (rows : List Row) (userID : UUID) (serviceName : String)
    (lo hi : DateTime) : Int :=
  sqlCoalesce
    (sqlSum ((rows.filter fun r =>
        decide (r.userId = userID) && decide (r.serviceName = serviceName)
          && lo.leb r.startedAt && r.startedAt.leb hi).map fun r => r.servicePrice))
    0

/-- `usecase.validatePrice`: rejects a negative price. -/
def validatePrice (price : Int) : Option GoErr :=
  if price < 0 then some (GoErr.simple "price cannot be negative") else none

/-- `usecase.CreateSub`: validate the price, then call the store. -/
def UseCase.CreateSub (st : Store) (newId : UUID) (sub : UserSub) : Except Err Unit × Store :=
  match validatePrice sub.servicePrice with
  | some e => (Except.error (Err.validation e), st)
  | none =>
    (Except.ok (), { rows := Storage.CreateSub st.rows newId sub,
                     calls := st.calls ++ [StoreCall.create sub] })

/-- `usecase.UpdateSub`: validate the price, then call the store. -/
def UseCase.UpdateSub (st : Store) (sub : UserSub) : Except Err Unit × Store :=
  match validatePrice sub.servicePrice with
  | some e => (Except.error (Err.validation e), st)
  | none =>
    (Except.ok (), { rows := Storage.UpdateSub st.rows sub,
                     calls := st.calls ++ [StoreCall.update sub] })

/-- `usecase.DeleteSub`: pass `(subID, userID)` straight to the store. -/
def UseCase.DeleteSub (st : Store) (subID userID : UUID) : Except Err Unit × Store :=
  (Except.ok (), { rows := Storage.DeleteSub st.rows subID userID,
                   calls := st.calls ++ [StoreCall.delete subID userID] })

/-- `usecase.GetUserSub`: pass-through single-row read, propagating the
store's error unchanged. -/
def UseCase.GetUserSub (st : Store) (subID : UUID) : Except Err UserSub × Store :=
  match Storage.GetUserSub st.rows subID with
  | Except.error e =>
    (Except.error (Err.storage e), { st with calls := st.calls ++ [StoreCall.getUserSub subID] })
  | Except.ok sub =>
    (Except.ok sub, { st with calls := st.calls ++ [StoreCall.getUserSub subID] })

/-- `usecase.GetTotalCost`: parse both period bounds with layout
`01-2006`, advance the upper bound by one month and step back one second,
then delegate the normalized closed range to the store's aggregate. -/
def UseCase.GetTotalCost (st : Store) (userID : UUID)
    (serviceName fromStr toStr : String) : Except Err Int × Store :=
  match parseMonthYear fromStr with
  | none => (Except.error (Err.validation (GoErr.simple "invalid from_date format")), st)
  | some (fm, fy) =>
    match parseMonthYear toStr with
    | none => (Except.error (Err.validation (GoErr.simple "invalid to_date format")), st)
    | some (tm, ty) =>
      let lo := firstOfMonth fm fy
      let hi := subOneSecond (addOneMonth (firstOfMonth tm ty))
      (Except.ok (Storage.GetTotalCost st.rows userID serviceName lo hi),
       { st with calls := st.calls ++ [StoreCall.totalCost userID serviceName lo hi] })

/-- `handlers.CreateSub` after JSON decoding: overwrite the request's
`startedAt` with the current processing time, then invoke the usecase. -/
def HttpHandler.CreateSub (st : Store) (now : DateTime) (newId : UUID)
    (req : UserSub) : Except Err Unit × Store :=
  UseCase.CreateSub st newId { req with startedAt := now }

/-- `handlers.GetTotalCost`: reject if any of the four query parameters is
empty, then parse the user id (the UUID parser is abstracted as a
parameter), then invoke the usecase. -/
def HttpHandler.GetTotalCost (parseUUID : String → Option UUID) (st : Store)
    (userIDStr serviceName fromStr toStr : String) : Except Err Int × Store :=
  if userIDStr = "" ∨ serviceName = "" ∨ fromStr = "" ∨ toStr = "" then
    (Except.error (Err.validation (GoErr.simple "missing query params")), st)
  else
    match parseUUID userIDStr with
    | none => (Except.error (Err.validation (GoErr.simple "invalid user id")), st)
    | some uid => UseCase.GetTotalCost st uid serviceName fromStr toStr

/-- Whether a total-cost outcome is an input-validation failure. -/
def isValidationErr : Except Err Int → Bool
  | Except.error (Err.validation _) => true
  | _ => false

/-- A successful parse yields a month in 1..12. -/
theorem parseMonthYear_month_bounds {s : String} {m y : Nat}
    (h : parseMonthYear s = some (m, y)) : 1 ≤ m ∧ m ≤ 12 := by
  unfold parseMonthYear at h
  split at h
  · split at h
    · rename_i hcond
      injection h with h'
      obtain ⟨h1, _⟩ := Prod.mk.injEq .. ▸ h'
      subst h1
      exact ⟨hcond.2.2.2.2.2.2.2.1, hcond.2.2.2.2.2.2.2.2⟩
    · cases h
  · cases h

/-- Every month has at most 31 days. -/
theorem daysInMonth_le_31 (y m : Nat) : daysInMonth y m ≤ 31 := by
  unfold daysInMonth
  split
  · split <;> omega
  · split <;> omega

/-- Advancing a first-of-month instant by one month and stepping back one
second lands on the last instant of the original month. -/
theorem normalize_to_last_instant (y m : Nat) (h1 : 1 ≤ m) (h2 : m ≤ 12) :
    subOneSecond (addOneMonth (firstOfMonth m y)) =
      ⟨y, m, daysInMonth y m, 23, 59, 59⟩ := by
  by_cases hm : m = 12
  · subst hm
    rfl
  · have h3 : 1 < m + 1 := by omega
    have e1 : addOneMonth (firstOfMonth m y) = ⟨y, m + 1, 1, 0, 0, 0⟩ := by
      simp [addOneMonth, firstOfMonth, hm]
    rw [e1]
    simp [subOneSecond, h3]

/-- The last instant of a month lies strictly before the first instant of
any chronologically later month. -/
theorem last_instant_lt_first_of_later (fy fm ty tm : Nat)
    (hf1 : 1 ≤ fm) (hf2 : fm ≤ 12) (ht1 : 1 ≤ tm) (ht2 : tm ≤ 12)
    (hinv : ty < fy ∨ (ty = fy ∧ tm < fm)) :
    (DateTime.mk ty tm (daysInMonth ty tm) 23 59 59).key < (firstOfMonth fm fy).key := by
  have hD : daysInMonth ty tm ≤ 31 := daysInMonth_le_31 ty tm
  show ((((ty * 13 + tm) * 32 + daysInMonth ty tm) * 24 + 23) * 60 + 59) * 60 + 59 <
    ((((fy * 13 + fm) * 32 + 1) * 24 + 0) * 60 + 0) * 60 + 0
  omega

/-- COALESCE over the SQL SUM agrees with the plain list sum. -/
theorem sqlCoalesce_sqlSum_zero (xs : List Int) : sqlCoalesce (sqlSum xs) 0 = xs.sum := by
  cases xs <;> simp [sqlSum, sqlCoalesce]

/-- An aggregate over an inverted range (upper bound before lower bound)
matches no rows and evaluates to zero. -/
theorem getTotalCost_zero_of_hi_lt_lo (rows : List Row) (uid : UUID) (sname : String)
    (lo hi : DateTime) (h : hi.key < lo.key) :
    Storage.GetTotalCost rows uid sname lo hi = 0 := by
  unfold Storage.GetTotalCost
  have hfil : (rows.filter fun r =>
      decide (r.userId = uid) && decide (r.serviceName = sname)
        && lo.leb r.startedAt && r.startedAt.leb hi) = [] := by
    refine List.filter_eq_nil_iff.mpr ?_
    intro r hr
    simp [DateTime.leb]
    rintro - - h1
    omega
  rw [hfil]
  rfl

/-- C1: for every pair of strings that parse in MM-YYYY format, the
total-cost operation normalizes the query period to the closed range from
the first instant of the `from` month to the last instant of the `to`
month (first instant of the following month minus one second), and passes
exactly that range to the store's aggregate. -/
theorem getTotalCost_normalizes_period (st : Store) (uid : UUID) (sname : String)
    (fromS toS : String) (fm fy tm ty : Nat)
    (hf : parseMonthYear fromS = some (fm, fy))
    (ht : parseMonthYear toS = some (tm, ty)) :
    (UseCase.GetTotalCost st uid sname fromS toS).2.calls =
      st.calls ++ [StoreCall.totalCost uid sname ⟨fy, fm, 1, 0, 0, 0⟩
        ⟨ty, tm, daysInMonth ty tm, 23, 59, 59⟩] := by
  have hb := parseMonthYear_month_bounds ht
  simp only [UseCase.GetTotalCost, hf, ht]
  rw [normalize_to_last_instant ty tm hb.1 hb.2]
  rfl

/-- Witness for C1 at the spec's two examples: 01-2025..01-2025 yields
[2025-01-01T00:00:00, 2025-01-31T23:59:59], and 01-2025..03-2025 yields
[2025-01-01T00:00:00, 2025-03-31T23:59:59]. -/
theorem getTotalCost_normalizes_period_witness :
    (UseCase.GetTotalCost ⟨[], []⟩ 1 "netflix" "01-2025" "01-2025").2.calls =
      [StoreCall.totalCost 1 "netflix" ⟨2025, 1, 1, 0, 0, 0⟩ ⟨2025, 1, 31, 23, 59, 59⟩] ∧
    (UseCase.GetTotalCost ⟨[], []⟩ 1 "netflix" "01-2025" "03-2025").2.calls =
      [StoreCall.totalCost 1 "netflix" ⟨2025, 1, 1, 0, 0, 0⟩ ⟨2025, 3, 31, 23, 59, 59⟩] := by
  constructor
  · have h := getTotalCost_normalizes_period ⟨[], []⟩ 1 "netflix" "01-2025" "01-2025"
      1 2025 1 2025 (by decide) (by decide)
    simpa [daysInMonth, isLeap] using h
  · have h := getTotalCost_normalizes_period ⟨[], []⟩ 1 "netflix" "01-2025" "03-2025"
      1 2025 3 2025 (by decide) (by decide)
    simpa [daysInMonth, isLeap] using h

/-- C2: for a subscription with a strictly negative price, both create and
update fail with the validation error and the store is untouched (same
rows, no store call logged). -/
theorem negative_price_rejected_without_store_call (st : Store) (newId : UUID)
    (sub : UserSub) (h : sub.servicePrice < 0) :
    UseCase.CreateSub st newId sub =
      (Except.error (Err.validation (GoErr.simple "price cannot be negative")), st) ∧
    UseCase.UpdateSub st sub =
      (Except.error (Err.validation (GoErr.simple "price cannot be negative")), st) := by
  have hv : validatePrice sub.servicePrice = some (GoErr.simple "price cannot be negative") := by
    unfold validatePrice
    rw [if_pos h]
  constructor <;> simp [UseCase.CreateSub, UseCase.UpdateSub, hv]

/-- Witness for C2 at price -1. -/
theorem negative_price_rejected_without_store_call_witness :
    UseCase.CreateSub ⟨[], []⟩ 9 ⟨0, "netflix", -1, 1, ⟨2025, 1, 1, 0, 0, 0⟩, none⟩ =
      (Except.error (Err.validation (GoErr.simple "price cannot be negative")), ⟨[], []⟩) :=
  (negative_price_rejected_without_store_call ⟨[], []⟩ 9
    ⟨0, "netflix", -1, 1, ⟨2025, 1, 1, 0, 0, 0⟩, none⟩ (by decide)).1

/-- C3: the aggregate is the sum of `servicePrice` over exactly the rows
whose `userId` and `serviceName` match and whose `startedAt` lies in the
closed interval, and it evaluates to plain `0` (no error value exists on
this path) whenever no row matches, including over an empty store. -/
theorem aggregateCost_sum_and_zero_on_no_match (rows : List Row) (uid : UUID)
    (sname : String) (lo hi : DateTime) :
    Storage.GetTotalCost rows uid sname lo hi =
      ((rows.filter fun r =>
          decide (r.userId = uid) && decide (r.serviceName = sname)
            && lo.leb r.startedAt && r.startedAt.leb hi).map fun r => r.servicePrice).sum
    ∧ ((∀ r ∈ rows, ¬(r.userId = uid ∧ r.serviceName = sname ∧
          lo.key ≤ r.startedAt.key ∧ r.startedAt.key ≤ hi.key)) →
        Storage.GetTotalCost rows uid sname lo hi = 0) := by
  constructor
  · unfold Storage.GetTotalCost
    exact sqlCoalesce_sqlSum_zero _
  · intro h
    unfold Storage.GetTotalCost
    have hfil : (rows.filter fun r =>
        decide (r.userId = uid) && decide (r.serviceName = sname)
          && lo.leb r.startedAt && r.startedAt.leb hi) = [] := by
      refine List.filter_eq_nil_iff.mpr ?_
      intro r hr
      simp [DateTime.leb]
      intro h1 h2 h3
      by_contra h4
      exact h r hr ⟨h1, h2, h3, by omega⟩
    rw [hfil]
    rfl

/-- Witness for C3: the empty store aggregates to zero. -/
theorem aggregateCost_sum_and_zero_on_no_match_witness :
    Storage.GetTotalCost [] 1 "netflix" ⟨2025, 1, 1, 0, 0, 0⟩ ⟨2025, 1, 31, 23, 59, 59⟩ = 0 :=
  (aggregateCost_sum_and_zero_on_no_match [] 1 "netflix"
    ⟨2025, 1, 1, 0, 0, 0⟩ ⟨2025, 1, 31, 23, 59, 59⟩).2 (by simp)

/-- C4: if either date string fails to parse as MM-YYYY or any of the four
query parameters is empty, the total-cost pipeline fails with a
validation error and the store is left untouched (no store call is made),
for any behavior of the UUID parser. -/
theorem getTotalCost_invalid_params_validation_error
    (pu : String → Option UUID) (st : Store) (uidS sname fromS toS : String)
    (h : parseMonthYear fromS = none ∨ parseMonthYear toS = none ∨
         uidS = "" ∨ sname = "" ∨ fromS = "" ∨ toS = "") :
    isValidationErr (HttpHandler.GetTotalCost pu st uidS sname fromS toS).1 = true ∧
    (HttpHandler.GetTotalCost pu st uidS sname fromS toS).2 = st := by
  unfold HttpHandler.GetTotalCost
  by_cases he : uidS = "" ∨ sname = "" ∨ fromS = "" ∨ toS = ""
  · rw [if_pos he]
    exact ⟨rfl, rfl⟩
  · rw [if_neg he]
    cases hpu : pu uidS with
    | none => exact ⟨rfl, rfl⟩
    | some uid =>
      unfold UseCase.GetTotalCost
      cases hfp : parseMonthYear fromS with
      | none => exact ⟨rfl, rfl⟩
      | some p =>
        obtain ⟨fm, fy⟩ := p
        have hto : parseMonthYear toS = none := by
          rcases h with h | h | h | h | h | h
          · rw [h] at hfp; cases hfp
          · exact h
          · exact absurd (Or.inl h) he
          · exact absurd (Or.inr (Or.inl h)) he
          · exact absurd (Or.inr (Or.inr (Or.inl h))) he
          · exact absurd (Or.inr (Or.inr (Or.inr h))) he
        rw [hto]
        exact ⟨rfl, rfl⟩

/-- Witness for C4 at the malformed date string 2025-01. -/
theorem getTotalCost_invalid_params_validation_error_witness :
    isValidationErr (HttpHandler.GetTotalCost (fun _ => some 1) ⟨[], []⟩
        "u" "netflix" "2025-01" "01-2025").1 = true ∧
    (HttpHandler.GetTotalCost (fun _ => some 1) ⟨[], []⟩
        "u" "netflix" "2025-01" "01-2025").2 = ⟨[], []⟩ :=
  getTotalCost_invalid_params_validation_error (fun _ => some 1) ⟨[], []⟩
    "u" "netflix" "2025-01" "01-2025" (Or.inl (by decide))

/-- C5: a delete whose userId does not match the owner of any row carrying
that id removes nothing, reports no error, and issues exactly the one
delete store call keyed on both id and userId (no prior read). -/
theorem delete_mismatched_owner_noop (st : Store) (subID uid : UUID)
    (h : ∀ r ∈ st.rows, r.id = subID → r.userId ≠ uid) :
    UseCase.DeleteSub st subID uid =
      (Except.ok (), { rows := st.rows, calls := st.calls ++ [StoreCall.delete subID uid] }) ∧
    (st.rows.filter fun r => decide (r.id = subID ∧ r.userId = uid)).length = 0 := by
  have hfil : Storage.DeleteSub st.rows subID uid = st.rows := by
    unfold Storage.DeleteSub
    refine List.filter_eq_self.mpr ?_
    intro r hr
    simp
    have := h r hr
    tauto
  have hfil2 : (st.rows.filter fun r => decide (r.id = subID ∧ r.userId = uid)) = [] := by
    refine List.filter_eq_nil_iff.mpr ?_
    intro r hr
    simp
    have := h r hr
    tauto
  refine ⟨?_, by rw [hfil2]; rfl⟩
  unfold UseCase.DeleteSub
  rw [hfil]

/-- Witness for C5: deleting (id 7, userId 4) when the row with id 7 is
owned by userId 3 leaves the store unchanged and reports ok. -/
theorem delete_mismatched_owner_noop_witness :
    UseCase.DeleteSub ⟨[⟨7, "netflix", 990, 3, ⟨2025, 7, 1, 0, 0, 0⟩, none⟩], []⟩ 7 4 =
      (Except.ok (), ⟨[⟨7, "netflix", 990, 3, ⟨2025, 7, 1, 0, 0, 0⟩, none⟩],
        [StoreCall.delete 7 4]⟩) :=
  (delete_mismatched_owner_noop ⟨[⟨7, "netflix", 990, 3, ⟨2025, 7, 1, 0, 0, 0⟩, none⟩], []⟩
    7 4 (by decide)).1

/-- C6: update rewrites exactly serviceName, servicePrice and endedAt on
the row matching both id and userId; id, userId and startedAt of every
row are preserved, and rows not matching both keys are unchanged. -/
theorem update_overwrites_only_mutable_fields (rows : List Row) (sub : UserSub)
    (i : Nat) (r r2 : Row) (h1 : rows[i]? = some r)
    (h2 : (Storage.UpdateSub rows sub)[i]? = some r2) :
    r2.id = r.id ∧ r2.userId = r.userId ∧ r2.startedAt = r.startedAt ∧
    (r.id = sub.id ∧ r.userId = sub.userId →
      r2.serviceName = sub.serviceName ∧ r2.servicePrice = sub.servicePrice ∧
      r2.endedAt = sub.endedAt) ∧
    (¬(r.id = sub.id ∧ r.userId = sub.userId) → r2 = r) := by
  unfold Storage.UpdateSub at h2
  rw [List.getElem?_map, h1] at h2
  simp only [Option.map_some'] at h2
  injection h2 with h2
  subst h2
  by_cases hc : r.id = sub.id ∧ r.userId = sub.userId
  · rw [if_pos hc]
    exact ⟨rfl, rfl, rfl, fun _ => ⟨rfl, rfl, rfl⟩, fun hn => absurd hc hn⟩
  · rw [if_neg hc]
    exact ⟨rfl, rfl, rfl, fun hcon => absurd hcon hc, fun _ => rfl⟩

/-- Witness for C6 on a one-row store whose row matches the update keys:
startedAt is preserved while serviceName takes the new value. -/
theorem update_overwrites_only_mutable_fields_witness :
    (⟨7, "hulu", 500, 3, ⟨2025, 7, 1, 0, 0, 0⟩, some ⟨2026, 2, 1, 0, 0, 0⟩⟩ : Row).startedAt =
      (⟨7, "netflix", 990, 3, ⟨2025, 7, 1, 0, 0, 0⟩, none⟩ : Row).startedAt ∧
    (⟨7, "hulu", 500, 3, ⟨2025, 7, 1, 0, 0, 0⟩, some ⟨2026, 2, 1, 0, 0, 0⟩⟩ : Row).serviceName =
      (⟨7, "hulu", 500, 3, ⟨2026, 1, 1, 0, 0, 0⟩, some ⟨2026, 2, 1, 0, 0, 0⟩⟩ : UserSub).serviceName := by
  have h := update_overwrites_only_mutable_fields
    [⟨7, "netflix", 990, 3, ⟨2025, 7, 1, 0, 0, 0⟩, none⟩]
    ⟨7, "hulu", 500, 3, ⟨2026, 1, 1, 0, 0, 0⟩, some ⟨2026, 2, 1, 0, 0, 0⟩⟩ 0
    ⟨7, "netflix", 990, 3, ⟨2025, 7, 1, 0, 0, 0⟩, none⟩
    ⟨7, "hulu", 500, 3, ⟨2025, 7, 1, 0, 0, 0⟩, some ⟨2026, 2, 1, 0, 0, 0⟩⟩
    (by decide) (by decide)
  exact ⟨h.2.2.1, (h.2.2.2.1 ⟨rfl, rfl⟩).1⟩

/-- C7: for a valid create request (non-negative price), the create
pipeline overwrites the request's startedAt with the current processing
time before invoking the repository, and the stored row's identifier is
the store-assigned one — the request's own id and startedAt never reach
the table, whatever values they carried. -/
theorem create_sets_startedAt_now_and_store_assigns_id (st : Store) (now : DateTime)
    (newId : UUID) (req : UserSub) (h : 0 ≤ req.servicePrice) :
    HttpHandler.CreateSub st now newId req =
      (Except.ok (),
       { rows := st.rows ++
           [⟨newId, req.serviceName, req.servicePrice, req.userId, now, req.endedAt⟩],
         calls := st.calls ++ [StoreCall.create { req with startedAt := now }] }) := by
  have hv : validatePrice req.servicePrice = none := by
    unfold validatePrice
    rw [if_neg (by omega)]
  unfold HttpHandler.CreateSub UseCase.CreateSub
  simp [hv, Storage.CreateSub]

/-- Witness for C7: the caller supplies id 42 and startedAt 2030-05-05;
the stored row carries the store-assigned id 99 and startedAt equal to
the processing time 2025-01-02T03:04:05. -/
theorem create_sets_startedAt_now_and_store_assigns_id_witness :
    HttpHandler.CreateSub ⟨[], []⟩ ⟨2025, 1, 2, 3, 4, 5⟩ 99
        ⟨42, "spotify", 500, 7, ⟨2030, 5, 5, 5, 5, 5⟩, none⟩ =
      (Except.ok (),
       ⟨[⟨99, "spotify", 500, 7, ⟨2025, 1, 2, 3, 4, 5⟩, none⟩],
        [StoreCall.create ⟨42, "spotify", 500, 7, ⟨2025, 1, 2, 3, 4, 5⟩, none⟩]⟩) := by
  have h := create_sets_startedAt_now_and_store_assigns_id ⟨[], []⟩ ⟨2025, 1, 2, 3, 4, 5⟩ 99
    ⟨42, "spotify", 500, 7, ⟨2030, 5, 5, 5, 5, 5⟩, none⟩ (by decide)
  simpa using h

/-- C8: when both bounds parse but the from month is chronologically after
the to month, the total-cost operation succeeds with 0 (the normalized
range matches no row) rather than failing, and the rows are untouched. -/
theorem inverted_range_returns_zero (st : Store) (uid : UUID) (sname : String)
    (fromS toS : String) (fm fy tm ty : Nat)
    (hf : parseMonthYear fromS = some (fm, fy))
    (ht : parseMonthYear toS = some (tm, ty))
    (hinv : ty < fy ∨ (ty = fy ∧ tm < fm)) :
    (UseCase.GetTotalCost st uid sname fromS toS).1 = Except.ok 0 ∧
    (UseCase.GetTotalCost st uid sname fromS toS).2.rows = st.rows := by
  have hbf := parseMonthYear_month_bounds hf
  have hbt := parseMonthYear_month_bounds ht
  simp only [UseCase.GetTotalCost, hf, ht]
  rw [normalize_to_last_instant ty tm hbt.1 hbt.2]
  refine ⟨?_, by simp⟩
  have hk := last_instant_lt_first_of_later fy fm ty tm hbf.1 hbf.2 hbt.1 hbt.2 hinv
  rw [getTotalCost_zero_of_hi_lt_lo st.rows uid sname _ _ hk]

/-- Witness for C8: from 03-2025, to 01-2025 yields ok 0. -/
theorem inverted_range_returns_zero_witness :
    (UseCase.GetTotalCost ⟨[], []⟩ 1 "netflix" "03-2025" "01-2025").1 = Except.ok 0 :=
  (inverted_range_returns_zero ⟨[], []⟩ 1 "netflix" "03-2025" "01-2025"
    3 2025 1 2025 (by decide) (by decide) (Or.inr ⟨rfl, by omega⟩)).1

/-- C9: when no stored row carries the requested id, the get-by-id
operation fails with the wrapped no-rows sentinel, the usecase propagates
it as a storage-path failure, and that condition is distinguishable (in
the errors.Is sense) from any other storage failure, which does not carry
the no-rows sentinel in its wrap chain. -/
theorem get_by_id_not_found_distinguishable (st : Store) (subID : UUID)
    (h : ∀ r ∈ st.rows, r.id ≠ subID) :
    Storage.GetUserSub st.rows subID =
      Except.error (GoErr.wrap "storage.storage.GetUserSub" GoErr.noRows) ∧
    (UseCase.GetUserSub st subID).1 =
      Except.error (Err.storage (GoErr.wrap "storage.storage.GetUserSub" GoErr.noRows)) ∧
    GoErr.is (GoErr.wrap "storage.storage.GetUserSub" GoErr.noRows) GoErr.noRows = true ∧
    (∀ msg : String, GoErr.is (GoErr.wrap "storage.storage.GetUserSub" (GoErr.simple msg))
        GoErr.noRows = false) := by
  have hfind : st.rows.find? (fun r => decide (r.id = subID)) = none := by
    refine List.find?_eq_none.mpr ?_
    intro r hr
    simp
    exact h r hr
  have hs : Storage.GetUserSub st.rows subID =
      Except.error (GoErr.wrap "storage.storage.GetUserSub" GoErr.noRows) := by
    unfold Storage.GetUserSub
    rw [hfind]
  refine ⟨hs, ?_, rfl, fun msg => rfl⟩
  unfold UseCase.GetUserSub
  rw [hs]

/-- Witness for C9 on the empty store, separating the no-rows condition
from a connection failure. -/
theorem get_by_id_not_found_distinguishable_witness :
    Storage.GetUserSub ([] : List Row) 5 =
      Except.error (GoErr.wrap "storage.storage.GetUserSub" GoErr.noRows) ∧
    GoErr.is (GoErr.wrap "storage.storage.GetUserSub" (GoErr.simple "connection refused"))
      GoErr.noRows = false := by
  have h := get_by_id_not_found_distinguishable ⟨[], []⟩ 5 (by simp)
  exact ⟨h.1, h.2.2.2 "connection refused"⟩

/-- C10: every read path (list-all, list-by-user, get-by-id) selects
without the id column, so each returned entity carries the zero UUID in
its id field regardless of the identifier stored in the row. -/
theorem reads_never_return_stored_id (rows : List Row) (uid subID : UUID) :
    (∀ s ∈ Storage.GetSubs rows, s.id = 0) ∧
    (∀ s ∈ Storage.GetUserSubs rows uid, s.id = 0) ∧
    (∀ u : UserSub, Storage.GetUserSub rows subID = Except.ok u → u.id = 0) := by
  refine ⟨?_, ?_, ?_⟩
  · intro s hs
    rcases List.mem_map.mp hs with ⟨r, _, hr⟩
    rw [← hr]
    rfl
  · intro s hs
    rcases List.mem_map.mp hs with ⟨r, _, hr⟩
    rw [← hr]
    rfl
  · intro u hu
    unfold Storage.GetUserSub at hu
    cases hfind : rows.find? (fun r => decide (r.id = subID)) with
    | none => rw [hfind] at hu; cases hu
    | some r => rw [hfind] at hu; injection hu with h'; rw [← h']; rfl

/-- Witness for C10: a row stored with id 7 comes back with id 0. -/
theorem reads_never_return_stored_id_witness :
    (rowToUserSub ⟨7, "netflix", 990, 3, ⟨2025, 7, 1, 0, 0, 0⟩, none⟩).id = 0 :=
  (reads_never_return_stored_id [⟨7, "netflix", 990, 3, ⟨2025, 7, 1, 0, 0, 0⟩, none⟩] 3 7).2.2
    (rowToUserSub ⟨7, "netflix", 990, 3, ⟨2025, 7, 1, 0, 0, 0⟩, none⟩) rfl
